import Mathlib

/-!
# Verification of the weather-forecast resolution engine

A shallow embedding, in Lean 4, of the decision logic of the
weather-forecast repository: location disambiguation (`pickLocation`),
temporal alignment of hourly series (`alignIndex`), current-conditions
extraction (`pickHourlyValue` / `extractCurrent`), the two-provider
fallback chain of the tool server (`getForecastTool`), the country
directory name selection (`toCountryEntry`, `searchCountries`,
`getCountries`) and the cities-by-country de-duplication
(`citiesForCountry`).

Modelling conventions:
* JavaScript strings are Lean `String`s; the handful of string
  operations used by the code (`toLowerCase`, `toUpperCase`, `trim`,
  `split("T")[0]`, `startsWith`) are implemented over `String.toList`
  so that every definition evaluates by kernel reduction.
* JavaScript numbers that the code only moves around are modelled as
  `Int`; `Date.parse` (whose result depends on the JS date grammar) is
  an explicit parameter `parseMs : String → Option Int`, with `none`
  standing for `NaN`.
* `null`/`undefined` is `Option.none`; JS truthiness of strings
  (`""` is falsy) is modelled explicitly where the code relies on it.
* `fetch` results are passed in as explicit values (`Option` payloads
  or a `FetchOutcome`), so that a handler is a pure function of the
  upstream responses it would observe.
-/

/-- `s.toLowerCase()` on the character list of `s`. -/
def lowerStr (s : String) : String := String.mk (s.toList.map Char.toLower)

/-- `s.toUpperCase()` on the character list of `s`. -/
def upperStr (s : String) : String := String.mk (s.toList.map Char.toUpper)

/-- Whitespace characters recognised by the model of `String.prototype.trim`. -/
def isWsChar (c : Char) : Bool := c == ' ' || c == '\t' || c == '\n' || c == '\r'

/-- `s.trim()`: drop whitespace from both ends. -/
def trimStr (s : String) : String :=
  String.mk (((s.toList.dropWhile isWsChar).reverse.dropWhile isWsChar).reverse)

/-- `s.startsWith(pre)`. -/
def startsWithStr (s pre : String) : Bool := pre.toList.isPrefixOf s.toList

/-- `s.split("T")[0]`: the portion of `s` before the first `'T'`
(the whole string when `s` has no `'T'`). -/
def datePart (s : String) : String :=
  String.mk (s.toList.takeWhile (fun c => !(c == 'T')))

/-- `Array.prototype.findIndex` / `indexOf`, with `none` for `-1`. -/
def findIdxOpt (p : α → Bool) : List α → Option Nat
  | [] => none
  | x :: xs => if p x then some 0 else (findIdxOpt p xs).map (· + 1)

/-- JS `a || b` on two optional strings (`undefined` and `""` are falsy). -/
def jsOrO (a b : Option String) : Option String :=
  match a with
  | some s => if s == "" then b else some s
  | none => b

/-- JS `a || b` where the right operand is a plain string. -/
def jsOrS (a : Option String) (b : String) : String :=
  match a with
  | some s => if s == "" then b else s
  | none => b

/-- JS truthiness of an optional string: `undefined` and `""` are falsy. -/
def jsTruthy (o : Option String) : Bool :=
  match o with
  | some s => !(s == "")
  | none => false

/-! ## Location resolver (`api/_shared.ts`) -/

/-- A geocoding candidate as returned by the geocoding provider
(`GeocodingResult` in `_shared.ts`). Coordinates are opaque `Int`s. -/
structure GeocodingResult where
  name : String
  latitude : Int
  longitude : Int
  country : String
  country_code : Option String
  admin1 : Option String
deriving DecidableEq

/-- The filter predicate inside `pickLocation`:
`if (isCode && result.country_code) return result.country_code.toLowerCase() === normalized;
 return result.country.toLowerCase() === normalized;`
Note that `result.country_code` is a JS truthiness test, so a missing or
empty `country_code` falls back to the `country` field comparison even
when the input looks like a 2-letter code. -/
def countryFilterPred (countryInput : String) (r : GeocodingResult) : Bool :=
  let normalized := lowerStr (trimStr countryInput)
  let isCode := normalized.length == 2
  match r.country_code with
  | some cc => if isCode && !(cc == "") then lowerStr cc == normalized
               else lowerStr r.country == normalized
  | none => lowerStr r.country == normalized

/-- `pickLocation` from `api/_shared.ts`:
filter by the country input, return the first match, falling back to the
first candidate overall when the filter matches nothing
(`(matches.length ? matches : results)[0] || null`). -/
def pickLocation (results : List GeocodingResult) (countryInput : String) :
    Option GeocodingResult :=
  let hits := results.filter (countryFilterPred countryInput)
  (if hits.isEmpty then results else hits).head?

/-- The code-mode matching behaviour for a 2-letter normalized input:
a candidate carrying a non-empty `country_code` is compared by that code
(lowercased); a candidate lacking one is compared by its `country` field. -/
def codeModeFilter (normalized : String) (r : GeocodingResult) : Bool :=
  match r.country_code with
  | some cc => if !(cc == "") then lowerStr cc == normalized
               else lowerStr r.country == normalized
  | none => lowerStr r.country == normalized

/-- Name-mode matching: compare the `country` field, lowercased. -/
def nameModeFilter (normalized : String) (r : GeocodingResult) : Bool :=
  lowerStr r.country == normalized

/-- Candidate with no `country_code` whose `country` field is literally "il". -/
def cexNoCode : GeocodingResult := ⟨"NameTown", 0, 0, "il", none, none⟩

/-- Candidate carrying the ISO code `"IL"`. -/
def cexCoded : GeocodingResult := ⟨"CodeTown", 0, 0, "Israel", some "IL", none⟩

/-- A US-coded candidate listed before an IL-coded one. -/
def wUS : GeocodingResult := ⟨"Springfield", 39, -89, "United States", some "US", some "Illinois"⟩

/-- An IL-coded candidate. -/
def wIL : GeocodingResult := ⟨"Tel Aviv", 32, 34, "Israel", some "IL", none⟩

/-! ## Forecast handler geocode step (`api/forecast.ts`, lines 31–42) -/

/-- Outcome of the geocode-disambiguation step of the forecast handler:
the 404 "No locations found" branch, the 404 "No matching location for
that country" branch, or proceeding with the picked location. -/
inductive GeoStep where
  | noLocations : GeoStep
  | noCountryMatch : GeoStep
  | proceed : GeocodingResult → GeoStep
deriving DecidableEq

/-- The forecast handler's geocode step: an empty result list yields the
"No locations found" 404; otherwise `pickLocation` is consulted and a
`null` answer would yield the "No matching location for that country" 404. -/
def forecastGeoStep (results : List GeocodingResult) (country : String) : GeoStep :=
  if results.isEmpty then GeoStep.noLocations
  else
    match pickLocation results country with
    | none => GeoStep.noCountryMatch
    | some loc => GeoStep.proceed loc

/-- Recogniser for the "No matching location for that country" branch. -/
def isNoCountryMatch : GeoStep → Bool
  | GeoStep.noCountryMatch => true
  | _ => false

/-- Recogniser for the successful branch. -/
def isProceed : GeoStep → Bool
  | GeoStep.proceed _ => true
  | _ => false

/-- A French candidate used to instantiate the handler-step theorem. -/
def w6 : GeocodingResult := ⟨"Paris", 48, 2, "France", some "FR", none⟩

/-! ## Temporal aligner (`api/forecast.ts`, lines 53–83) -/

/-- `Math.abs(Date.parse(t) - currentMs)` for one hourly timestamp,
`none` when the timestamp does not parse (`Date.parse` gives `NaN`). -/
def deltaOf (parseMs : String → Option Int) (cms : Int) (t : String) : Option Nat :=
  (parseMs t).map (fun ms => (ms - cms).natAbs)

/-- The nearest-neighbour loop of the handler (the `forEach` over
`hourlyTimes`): `i` is the index of the head of the remaining list,
`bestIndex`/`bestDelta` the running best (`bestDelta = none` models the
initial `Infinity`); an entry replaces the best only on a strictly
smaller delta, and unparseable entries are skipped. -/
def nearestGo (parseMs : String → Option Int) (cms : Int) :
    List String → Nat → Nat → Option Nat → Nat
  | [], _, bestIndex, _ => bestIndex
  | t :: ts, i, bestIndex, bestDelta =>
    match deltaOf parseMs cms t with
    | none => nearestGo parseMs cms ts (i + 1) bestIndex bestDelta
    | some d =>
      match bestDelta with
      | none => nearestGo parseMs cms ts (i + 1) i (some d)
      | some bd =>
        if d < bd then nearestGo parseMs cms ts (i + 1) i (some d)
        else nearestGo parseMs cms ts (i + 1) bestIndex (some bd)

/-- The parse-distance of the series entry at index `j`. -/
def tsDelta (parseMs : String → Option Int) (cms : Int)
    (ts : List String) (j : Nat) : Option Nat :=
  ts[j]?.bind (deltaOf parseMs cms)

/-- The temporal alignment computed inline in the forecast handler
(`api/forecast.ts`, lines 53–83). `index` starts at `0` and is only
recomputed when `currentTime` is truthy (so present **and** non-empty)
and the hourly series is non-empty; the three tiers are: exact
`indexOf`, first index whose timestamp starts with the date portion of
`currentTime`, and the nearest-neighbour loop (which leaves `0` when
`currentTime` itself does not parse). -/
def alignIndex (parseMs : String → Option Int) (hourlyTimes : List String)
    (currentTime : Option String) : Nat :=
  match currentTime with
  | none => 0
  | some ct =>
    if ct = "" then 0
    else if hourlyTimes = [] then 0
    else
      match findIdxOpt (fun t => t == ct) hourlyTimes with
      | some i => i
      | none =>
        match findIdxOpt (fun t => startsWithStr t (datePart ct)) hourlyTimes with
        | some i => i
        | none =>
          match parseMs ct with
          | none => 0
          | some cms => nearestGo parseMs cms hourlyTimes 0 0 none

/-! ## Current-conditions extraction (`api/forecast.ts`, lines 84–104) -/

/-- The daily block of the provider's forecast payload. -/
structure DailyForecast where
  time : List String
  temperature_2m_max : Option (List (Option Int))
  temperature_2m_min : Option (List (Option Int))
  precipitation_probability_max : Option (List (Option Int))
  weathercode : Option (List (Option Int))
deriving DecidableEq

/-- The hourly block of the forecast payload; each parallel series may be
absent, and a present series may hold non-numeric slots (`none`). -/
structure HourlyData where
  time : List String
  relative_humidity_2m : Option (List (Option Int))
  visibility : Option (List (Option Int))
  apparent_temperature : Option (List (Option Int))
  wind_speed_10m : Option (List (Option Int))
deriving DecidableEq

/-- The provider's `current_weather` block. -/
structure CurrentWeather where
  temperature : Option Int
  windspeed : Option Int
  time : Option String
deriving DecidableEq

/-- The forecast payload consumed by the handler (`ForecastResponse`
plus the `current_weather`/`hourly` blocks it reads). -/
structure ForecastData where
  current_weather : Option CurrentWeather
  hourly : Option HourlyData
  daily : Option DailyForecast
  timezone : Option String
deriving DecidableEq

/-- The `current` object of the handler's response. -/
structure CurrentConditions where
  temperature : Option Int
  windspeed : Option Int
  humidity : Option Int
  visibility : Option Int
  apparentTemperature : Option Int
deriving DecidableEq

/-- `pickHourlyValue` from the forecast handler: `null` for a missing or
empty series; otherwise the slot at `index` when it is a number, else the
first numeric value anywhere in the series, else `null`. -/
def pickHourlyValue (index : Nat) (values : Option (List (Option Int))) : Option Int :=
  match values with
  | none => none
  | some vs =>
    if vs.isEmpty then none
    else
      match vs.getD index none with
      | some n => some n
      | none => vs.findSome? id

/-- The `current` object assembled by the forecast handler (lines 95–104):
temperature straight from `current_weather`, the other four fields via
`pickHourlyValue`, with windspeed additionally falling back to
`current_weather.windspeed` (each `?? null` is the trailing `orElse`). -/
def extractCurrent (fd : ForecastData) (index : Nat) : CurrentConditions :=
  { temperature := Option.orElse (fd.current_weather.bind CurrentWeather.temperature)
      (fun _ => none)
  , windspeed := Option.orElse
      (pickHourlyValue index (fd.hourly.bind HourlyData.wind_speed_10m))
      (fun _ => Option.orElse (fd.current_weather.bind CurrentWeather.windspeed)
        (fun _ => none))
  , humidity := Option.orElse
      (pickHourlyValue index (fd.hourly.bind HourlyData.relative_humidity_2m))
      (fun _ => none)
  , visibility := Option.orElse
      (pickHourlyValue index (fd.hourly.bind HourlyData.visibility))
      (fun _ => none)
  , apparentTemperature := Option.orElse
      (pickHourlyValue index (fd.hourly.bind HourlyData.apparent_temperature))
      (fun _ => none) }

/-- The payload of the C5 witness: hourly humidity `[null, null, 55]`. -/
def w5 : ForecastData :=
  { current_weather := none
  , hourly := some
      { time := ["2024-01-01T00:00", "2024-01-01T01:00", "2024-01-01T02:00"]
      , relative_humidity_2m := some [none, none, some 55]
      , visibility := none
      , apparent_temperature := none
      , wind_speed_10m := none }
  , daily := none
  , timezone := none }

/-! ## Tool-server two-provider fallback (`build/index.js`, get-forecast) -/

/-- `properties` of an NWS points response; the forecast URL may be absent. -/
structure NWSPointsProps where
  forecast : Option String
deriving DecidableEq

/-- An NWS `/points/{lat},{lon}` response. -/
structure NWSPoints where
  properties : Option NWSPointsProps
deriving DecidableEq

/-- One NWS forecast period (the fields the tool formats). -/
structure NWSPeriod where
  name : Option String
  temperature : Option Int
  temperatureUnit : Option String
  windSpeed : Option String
  windDirection : Option String
  shortForecast : Option String
deriving DecidableEq

/-- `properties` of an NWS forecast response. -/
structure NWSForecastProps where
  periods : Option (List NWSPeriod)
deriving DecidableEq

/-- An NWS forecast response. -/
structure NWSForecastData where
  properties : Option NWSForecastProps
deriving DecidableEq

/-- The Open-Meteo payload consumed by the tool server. -/
structure OMForecast where
  current_weather : Option CurrentWeather
  daily : Option DailyForecast
deriving DecidableEq

/-- `formatOpenMeteoForecast` from `build/index.js`; `latS`/`lonS` are the
interpolated coordinate strings. -/
def formatOpenMeteoForecast (data : OMForecast) (latS lonS : String) : String :=
  match data.daily with
  | none => "No forecast periods available for " ++ latS ++ ", " ++ lonS
  | some daily =>
    if daily.time = [] then "No forecast periods available for " ++ latS ++ ", " ++ lonS
    else
      let currentLine :=
        match data.current_weather with
        | some cw =>
          some ("Current: " ++
            (match cw.temperature with
             | some t => toString t
             | none => "Unknown") ++ "°C, Wind " ++
            (match cw.windspeed with
             | some v => toString v
             | none => "Unknown") ++ " km/h")
        | none => none
      let formattedDays := daily.time.enum.map (fun p =>
        let maxText :=
          match (daily.temperature_2m_max.getD []).getD p.1 none with
          | some m => toString m ++ "°C"
          | none => "Unknown"
        let minText :=
          match (daily.temperature_2m_min.getD []).getD p.1 none with
          | some m => toString m ++ "°C"
          | none => "Unknown"
        p.2 ++ ": High " ++ maxText ++ ", Low " ++ minText)
      "Forecast for " ++ latS ++ ", " ++ lonS ++ " (Open-Meteo):\n\n" ++
        (match currentLine with
         | some cl => cl ++ "\n"
         | none => "") ++
        String.intercalate "\n" formattedDays

/-- One formatted NWS period (the `.map` body of the get-forecast tool);
note the JS `||` defaults, under which a temperature of `0` prints as
"Unknown". -/
def formatNWSPeriod (period : NWSPeriod) : String :=
  (jsOrS period.name "Unknown") ++ ":\n" ++
  "Temperature: " ++
    (match period.temperature with
     | some t => if t = 0 then "Unknown" else toString t
     | none => "Unknown") ++ "°" ++ (jsOrS period.temperatureUnit "F") ++ "\n" ++
  "Wind: " ++ (jsOrS period.windSpeed "Unknown") ++ " " ++
    (jsOrS period.windDirection "") ++ "\n" ++
  (jsOrS period.shortForecast "No forecast available") ++ "\n---"

/-- The upstream responses the get-forecast tool could observe: the NWS
points lookup, the Open-Meteo fetch, and the NWS forecast-URL fetch
(`none` = the corresponding request helper returned `null` after catching
a network/HTTP/parse failure). -/
structure ToolWorld where
  nwsPoints : Option NWSPoints
  openMeteo : Option OMForecast
  nwsForecast : Option NWSForecastData
deriving DecidableEq

/-- The get-forecast tool of `build/index.js` as a function of the
upstream responses; the returned string is the emitted text block. The
forecast-URL gate is the JS truthiness test `if (!forecastUrl)`, so a
missing **or empty-string** URL transitions to the Open-Meteo fallback. -/
def getForecastTool (w : ToolWorld) (latS lonS : String) : String :=
  match w.nwsPoints with
  | none =>
    match w.openMeteo with
    | none => "Failed to retrieve forecast data for coordinates: " ++ latS ++ ", " ++ lonS
    | some om => formatOpenMeteoForecast om latS lonS
  | some pts =>
    if jsTruthy (pts.properties.bind NWSPointsProps.forecast) then
      match w.nwsForecast with
      | none => "Failed to retrieve forecast data"
      | some fc =>
        match (fc.properties.bind NWSForecastProps.periods).getD [] with
        | [] => "No forecast periods available"
        | periods =>
          "Forecast for " ++ latS ++ ", " ++ lonS ++ ":\n\n" ++
            String.intercalate "\n" (periods.map formatNWSPeriod)
    else
      match w.openMeteo with
      | none => "Failed to get forecast data from grid point response and Open-Meteo"
      | some om => formatOpenMeteoForecast om latS lonS

/-! ## Country directory (`api/_shared.ts`, `getCountries` / `searchCountries`) -/

/-- One item of the restcountries payload, restricted to the fields the
code reads: `name.common`, `name.nativeName.heb.common`, `cca2`,
`translations.heb.common`, `altSpellings`. -/
structure CountryItem where
  name_common : String
  nativeName_heb_common : Option String
  cca2 : String
  translations_heb_common : Option String
  altSpellings : Option (List String)
deriving DecidableEq

/-- A mapped country entry. -/
structure CountryEntry where
  code : String
  name : String
  englishName : String
  hebrewName : Option String
  altSpellings : Option (List String)
deriving DecidableEq

/-- The `.filter` step `item.cca2 && item.name?.common` (JS truthiness,
so empty strings are dropped too). -/
def keepItem (item : CountryItem) : Bool :=
  !(item.cca2 == "") && !(item.name_common == "")

/-- The `.map` step of `getCountries`/`searchCountries`, for an already
lowercased language tag; the `||` chains of the source are `jsOrS`/`jsOrO`. -/
def toCountryEntry (normalizedLang : String) (item : CountryItem) : CountryEntry :=
  { code := upperStr item.cca2
  , name :=
      if normalizedLang = "he" then
        jsOrS (jsOrO item.translations_heb_common item.nativeName_heb_common)
          item.name_common
      else item.name_common
  , englishName := item.name_common
  , hebrewName := jsOrO item.translations_heb_common item.nativeName_heb_common
  , altSpellings := item.altSpellings }

/-- Insertion of one entry into a list sorted by the comparator on `name`. -/
def insertByName (le : String → String → Bool) (e : CountryEntry) :
    List CountryEntry → List CountryEntry
  | [] => [e]
  | x :: xs => if le e.name x.name then e :: x :: xs else x :: insertByName le e xs

/-- A sort by `(a, b) => a.name.localeCompare(b.name)`; the locale
collation itself is the abstract comparator `le`. -/
def sortByName (le : String → String → Bool) : List CountryEntry → List CountryEntry
  | [] => []
  | x :: xs => insertByName le x (sortByName le xs)

/-- The pipeline shared by `getCountries` and `searchCountries`:
filter, map, sort. -/
def buildCountries (le : String → String → Bool) (lang : String)
    (data : List CountryItem) : List CountryEntry :=
  sortByName le ((data.filter keepItem).map (toCountryEntry (lowerStr lang)))

/-- Outcome of the `fetch` inside `searchCountries`. -/
inductive FetchOutcome (α : Type) where
  | networkError : FetchOutcome α
  | status : Nat → FetchOutcome α
  | parseError : FetchOutcome α
  | ok : α → FetchOutcome α
deriving DecidableEq

/-- `searchCountries` from `api/_shared.ts`: a 404 status returns `[]`
directly; any other non-OK status throws and is caught (`return []`), as
are network errors and JSON parse failures; a parsed payload is filtered,
mapped and sorted. -/
def searchCountries (le : String → String → Bool) (lang : String)
    (fetched : FetchOutcome (List CountryItem)) : List CountryEntry :=
  match fetched with
  | FetchOutcome.networkError => []
  | FetchOutcome.status code => if code == 404 then [] else []
  | FetchOutcome.parseError => []
  | FetchOutcome.ok data => buildCountries le lang data

/-- `getCountries` from `api/_shared.ts`, with the per-language cache
entry passed in explicitly: serve the cache unless `refresh`; a failed
fetch (`fetchJson` returned `null`) yields `[]`; a successful one is
filtered, mapped, sorted. -/
def getCountries (le : String → String → Bool) (lang : String)
    (cached : Option (List CountryEntry)) (refresh : Bool)
    (fetched : Option (List CountryItem)) : List CountryEntry :=
  match cached, refresh with
  | some cs, false => cs
  | _, _ =>
    match fetched with
    | none => []
    | some data => buildCountries le lang data

/-- An HTTP-style handler response: a 200 JSON list or an error
status and message. -/
inductive ApiResponse where
  | ok : List CountryEntry → ApiResponse
  | err : Nat → String → ApiResponse
deriving DecidableEq

/-- The country-search handler (`api/countries/search.ts`): 400 on an
empty trimmed query, otherwise always a 200 with whatever
`searchCountries` produced. -/
def searchHandler (le : String → String → Bool) (lang query : String)
    (fetched : FetchOutcome (List CountryItem)) : ApiResponse :=
  if trimStr query == "" then ApiResponse.err 400 "Please provide query."
  else ApiResponse.ok (searchCountries le lang fetched)

/-- The country-list handler (`api/countries/index.ts`): an empty list
from `getCountries` becomes a 502. -/
def countriesIndexHandler (le : String → String → Bool) (lang : String)
    (cached : Option (List CountryEntry)) (refresh : Bool)
    (fetched : Option (List CountryItem)) : ApiResponse :=
  let countries := getCountries le lang cached refresh fetched
  if countries.isEmpty then ApiResponse.err 502 "Unable to load countries list."
  else ApiResponse.ok countries

/-- Item whose Hebrew translated name is present but empty. -/
def cex8 : CountryItem :=
  { name_common := "Exland"
  , nativeName_heb_common := some "ExlandNative"
  , cca2 := "EX"
  , translations_heb_common := some ""
  , altSpellings := none }

/-- Item with both Hebrew names present and non-empty. -/
def w8 : CountryItem :=
  { name_common := "Israel"
  , nativeName_heb_common := some "native-he"
  , cca2 := "IL"
  , translations_heb_common := some "trans-he"
  , altSpellings := none }

/-! ## Cities-by-country handler (`api/cities.ts`) -/

/-- The country-code filter of the cities handler:
`item.country_code?.toUpperCase() === countryCode` (a missing code never
matches). -/
def cityCodeMatch (country : String) (item : GeocodingResult) : Bool :=
  match item.country_code with
  | some cc => upperStr cc == upperStr country
  | none => false

/-- The de-duplication key: `name.toLowerCase() + "|" + (admin1 ?? "")`. -/
def cityKey (p : String × Option String) : String :=
  lowerStr p.1 ++ "|" ++ p.2.getD ""

/-- Insertion-ordered de-duplication: the `Map` keyed by `cityKey`
followed by `Array.from(map.values())`, which keeps the first occurrence
of every key in first-seen order. -/
def dedupBy {α : Type} (key : α → String) : List α → List String → List α
  | [], _ => []
  | x :: xs, seen =>
    if seen.contains (key x) then dedupBy key xs seen
    else x :: dedupBy key xs (key x :: seen)

/-- The cities-by-country response body: filter by country code, project
to `(name, admin1)`, de-duplicate by `cityKey`. -/
def citiesForCountry (results : List GeocodingResult) (country : String) :
    List (String × Option String) :=
  let filtered := (results.filter (cityCodeMatch country)).map
    (fun item => (item.name, item.admin1))
  dedupBy cityKey filtered []

/-- The lowercased `(name, admin1)` pair of a response entry. -/
def cityPair (p : String × Option String) : String × Option String :=
  (lowerStr p.1, p.2)

/-- Rebuilding the key from the lowercased pair. -/
def pairKeyStr (q : String × Option String) : String :=
  q.1 ++ "|" ++ q.2.getD ""

/-- Springfield with its admin1, US-coded. -/
def w9a : GeocodingResult :=
  ⟨"Springfield", 39, -89, "United States", some "US", some "Illinois"⟩

/-- A lowercase-spelled duplicate of the same city. -/
def w9b : GeocodingResult :=
  ⟨"springfield", 39, -89, "United States", some "US", some "Illinois"⟩

/-! ## Theorems -/

theorem filter_head?_isSome {α : Type} (l : List α) (h : l ≠ []) :
    l.head?.isSome = true := by
  cases l with
  | nil => exact absurd rfl h
  | cons x xs => rfl

theorem pickLocation_isSome (results : List GeocodingResult) (countryInput : String)
    (h : results ≠ []) : (pickLocation results countryInput).isSome = true := by
  unfold pickLocation
  cases hm : results.filter (countryFilterPred countryInput) with
  | nil =>
    simp only [hm, List.isEmpty_nil, if_pos rfl]
    exact filter_head?_isSome results h
  | cons m ms => simp [hm]

/-- **C1.** For every non-empty candidate list and every country input,
`pickLocation` returns a non-null candidate, and when the country filter
matches no candidate it returns the first candidate of the original list
rather than failing. -/
theorem C1_pickLocation_total (results : List GeocodingResult)
    (countryInput : String) (h : results ≠ []) :
    (pickLocation results countryInput).isSome = true ∧
    (results.filter (countryFilterPred countryInput) = [] →
      pickLocation results countryInput = results.head?) := by
  refine ⟨pickLocation_isSome results countryInput h, ?_⟩
  intro hflt
  unfold pickLocation
  simp [hflt]

/-- Concrete instance of C1: a single German candidate with country input
"France" (no match) still yields the first candidate. -/
theorem C1_pickLocation_total_witness :
    (pickLocation [⟨"Berlin", 52, 13, "Germany", some "DE", none⟩] "France").isSome = true ∧
    pickLocation [⟨"Berlin", 52, 13, "Germany", some "DE", none⟩] "France" =
      [⟨"Berlin", 52, 13, "Germany", some "DE", none⟩].head? :=
  ⟨(C1_pickLocation_total [⟨"Berlin", 52, 13, "Germany", some "DE", none⟩] "France"
      (by decide)).1,
   (C1_pickLocation_total [⟨"Berlin", 52, 13, "Germany", some "DE", none⟩] "France"
      (by decide)).2 (by decide)⟩

theorem countryFilterPred_split (country : String) (r : GeocodingResult) :
    countryFilterPred country r =
      (if (lowerStr (trimStr country)).length == 2
       then codeModeFilter (lowerStr (trimStr country)) r
       else nameModeFilter (lowerStr (trimStr country)) r) := by
  by_cases h2 : ((lowerStr (trimStr country)).length == 2) = true
  · cases hc : r.country_code with
    | none => simp [countryFilterPred, codeModeFilter, hc, h2]
    | some cc => simp [countryFilterPred, codeModeFilter, hc, h2]
  · cases hc : r.country_code with
    | none => simp [countryFilterPred, nameModeFilter, hc, h2]
    | some cc => simp [countryFilterPred, nameModeFilter, hc, h2]

/-- **C2 counterexample.** With country input "il" (length 2), `pickLocation`
returns a candidate whose `country_code` is absent (matched via its `country`
field) even though a candidate with `country_code = "IL"` is present — so the
selection is not "candidates whose `country_code` lowercased equals the input". -/
theorem C2_code_mode_counterexample :
    pickLocation [cexNoCode, cexCoded] "il" = some cexNoCode ∧
    cexNoCode.country_code = none ∧
    cexCoded.country_code = some "IL" ∧
    lowerStr "IL" = "il" := by decide

/-- **C2 (amended).** When the trimmed, lowercased country input has length
exactly 2, a candidate carrying a (non-empty) `country_code` is matched by
that code lowercased, while a candidate lacking one is matched by its
`country` field lowercased; the first match in provider-returned order is
returned regardless of position. When the normalized length is not 2,
candidates are matched by their `country` field lowercased. -/
theorem C2_pickLocation_modes (results : List GeocodingResult) (country : String) :
    ((lowerStr (trimStr country)).length = 2 →
      results.filter (codeModeFilter (lowerStr (trimStr country))) ≠ [] →
      pickLocation results country =
        (results.filter (codeModeFilter (lowerStr (trimStr country)))).head?) ∧
    ((lowerStr (trimStr country)).length ≠ 2 →
      results.filter (nameModeFilter (lowerStr (trimStr country))) ≠ [] →
      pickLocation results country =
        (results.filter (nameModeFilter (lowerStr (trimStr country)))).head?) := by
  constructor
  · intro h2 hne
    have hpred : ∀ r ∈ results,
        countryFilterPred country r = codeModeFilter (lowerStr (trimStr country)) r := by
      intro r _
      rw [countryFilterPred_split]
      simp [h2]
    unfold pickLocation
    rw [List.filter_congr hpred]
    cases hl : results.filter (codeModeFilter (lowerStr (trimStr country))) with
    | nil => exact absurd hl hne
    | cons m ms => simp
  · intro h2 hne
    have hpred : ∀ r ∈ results,
        countryFilterPred country r = nameModeFilter (lowerStr (trimStr country)) r := by
      intro r _
      rw [countryFilterPred_split]
      have : ((lowerStr (trimStr country)).length == 2) = false := by
        simpa using h2
      simp [this]
    unfold pickLocation
    rw [List.filter_congr hpred]
    cases hl : results.filter (nameModeFilter (lowerStr (trimStr country))) with
    | nil => exact absurd hl hne
    | cons m ms => simp

/-- Concrete instance of the amended C2: with a US-coded candidate listed
before an IL-coded one, country input "il" picks the IL-coded candidate. -/
theorem C2_pickLocation_modes_witness :
    pickLocation [wUS, wIL] "il" = some wIL := by
  have h := (C2_pickLocation_modes [wUS, wIL] "il").1 (by decide) (by decide)
  rw [h]; decide

/-- **C6.** The "No matching location for that country" error branch of the
forecast handler is unreachable: the handler consults `pickLocation` only
when the geocode result list is non-empty, and `pickLocation` then returns
non-null, so the geocode step never lands on `noCountryMatch`. -/
theorem C6_noCountryMatch_unreachable (results : List GeocodingResult)
    (country : String) :
    isNoCountryMatch (forecastGeoStep results country) = false ∧
    (results = [] → forecastGeoStep results country = GeoStep.noLocations) ∧
    (results ≠ [] → isProceed (forecastGeoStep results country) = true) := by
  refine ⟨?_, ?_, ?_⟩
  · unfold forecastGeoStep
    cases results with
    | nil => rfl
    | cons a l =>
      simp only [List.isEmpty_cons, Bool.false_eq_true, if_false]
      have h := pickLocation_isSome (a :: l) country (by simp)
      cases hp : pickLocation (a :: l) country with
      | none => rw [hp] at h; simp at h
      | some loc => rfl
  · intro he
    subst he
    rfl
  · intro hne
    unfold forecastGeoStep
    cases results with
    | nil => exact absurd rfl hne
    | cons a l =>
      simp only [List.isEmpty_cons, Bool.false_eq_true, if_false]
      have h := pickLocation_isSome (a :: l) country (by simp)
      cases hp : pickLocation (a :: l) country with
      | none => rw [hp] at h; simp at h
      | some loc => rfl

/-- Concrete instance of C6: a singleton candidate list with a non-matching
country input proceeds with that candidate and does not hit the error branch. -/
theorem C6_noCountryMatch_unreachable_witness :
    isNoCountryMatch (forecastGeoStep [w6] "zz") = false ∧
    isProceed (forecastGeoStep [w6] "zz") = true :=
  ⟨(C6_noCountryMatch_unreachable [w6] "zz").1,
   (C6_noCountryMatch_unreachable [w6] "zz").2.2 (by decide)⟩

theorem tsDelta_nil (p : String → Option Int) (cms : Int) (j : Nat) :
    tsDelta p cms [] j = none := by simp [tsDelta]

theorem tsDelta_cons_zero (p : String → Option Int) (cms : Int) (t : String)
    (ts : List String) : tsDelta p cms (t :: ts) 0 = deltaOf p cms t := by
  simp [tsDelta]

theorem tsDelta_cons_succ (p : String → Option Int) (cms : Int) (t : String)
    (ts : List String) (j : Nat) :
    tsDelta p cms (t :: ts) (j + 1) = tsDelta p cms ts j := by
  simp [tsDelta]

theorem nearestGo_inv_some (p : String → Option Int) (cms : Int) :
    ∀ (ts : List String) (i bi b : Nat),
      (nearestGo p cms ts i bi (some b) = bi ∧
        ∀ j d', tsDelta p cms ts j = some d' → b ≤ d') ∨
      (∃ k d, k < ts.length ∧ nearestGo p cms ts i bi (some b) = i + k ∧
        tsDelta p cms ts k = some d ∧ d ≤ b ∧
        ∀ j d', tsDelta p cms ts j = some d' → d ≤ d') := by
  intro ts
  induction ts with
  | nil =>
    intro i bi b
    left
    refine ⟨rfl, ?_⟩
    intro j d' hj
    rw [tsDelta_nil] at hj
    exact absurd hj (by simp)
  | cons t ts ih =>
    intro i bi b
    cases hd : deltaOf p cms t with
    | none =>
      have hstep : nearestGo p cms (t :: ts) i bi (some b) =
          nearestGo p cms ts (i + 1) bi (some b) := by
        simp [nearestGo, hd]
      rcases ih (i + 1) bi b with ⟨hr, hmin⟩ | ⟨k, d, hk, hr, hdk, hdb, hmin⟩
      · left
        refine ⟨by rw [hstep]; exact hr, ?_⟩
        intro j d' hj
        cases j with
        | zero => rw [tsDelta_cons_zero, hd] at hj; exact absurd hj (by simp)
        | succ j => rw [tsDelta_cons_succ] at hj; exact hmin j d' hj
      · right
        refine ⟨k + 1, d, by simpa using hk, by rw [hstep, hr]; omega,
          by rw [tsDelta_cons_succ]; exact hdk, hdb, ?_⟩
        intro j d' hj
        cases j with
        | zero => rw [tsDelta_cons_zero, hd] at hj; exact absurd hj (by simp)
        | succ j => rw [tsDelta_cons_succ] at hj; exact hmin j d' hj
    | some d0 =>
      by_cases hlt : d0 < b
      · have hstep : nearestGo p cms (t :: ts) i bi (some b) =
            nearestGo p cms ts (i + 1) i (some d0) := by
          simp [nearestGo, hd, hlt]
        rcases ih (i + 1) i d0 with ⟨hr, hmin⟩ | ⟨k, dk, hk, hr, hdk, hdb, hmin⟩
        · right
          refine ⟨0, d0, by simp, by rw [hstep, hr]; omega, by rw [tsDelta_cons_zero]; exact hd,
            by omega, ?_⟩
          intro j d' hj
          cases j with
          | zero =>
            rw [tsDelta_cons_zero, hd] at hj
            have : d0 = d' := by simpa using hj
            omega
          | succ j => rw [tsDelta_cons_succ] at hj; exact hmin j d' hj
        · right
          refine ⟨k + 1, dk, by simpa using hk, by rw [hstep, hr]; omega,
            by rw [tsDelta_cons_succ]; exact hdk, by omega, ?_⟩
          intro j d' hj
          cases j with
          | zero =>
            rw [tsDelta_cons_zero, hd] at hj
            have : d0 = d' := by simpa using hj
            omega
          | succ j => rw [tsDelta_cons_succ] at hj; exact hmin j d' hj
      · have hstep : nearestGo p cms (t :: ts) i bi (some b) =
            nearestGo p cms ts (i + 1) bi (some b) := by
          simp [nearestGo, hd, hlt]
        rcases ih (i + 1) bi b with ⟨hr, hmin⟩ | ⟨k, dk, hk, hr, hdk, hdb, hmin⟩
        · left
          refine ⟨by rw [hstep]; exact hr, ?_⟩
          intro j d' hj
          cases j with
          | zero =>
            rw [tsDelta_cons_zero, hd] at hj
            have : d0 = d' := by simpa using hj
            omega
          | succ j => rw [tsDelta_cons_succ] at hj; exact hmin j d' hj
        · right
          refine ⟨k + 1, dk, by simpa using hk, by rw [hstep, hr]; omega,
            by rw [tsDelta_cons_succ]; exact hdk, hdb, ?_⟩
          intro j d' hj
          cases j with
          | zero =>
            rw [tsDelta_cons_zero, hd] at hj
            have : d0 = d' := by simpa using hj
            omega
          | succ j => rw [tsDelta_cons_succ] at hj; exact hmin j d' hj

theorem nearestGo_inv_none (p : String → Option Int) (cms : Int) :
    ∀ (ts : List String) (i bi : Nat),
      ((∀ j d', tsDelta p cms ts j = some d' → False) ∧
        nearestGo p cms ts i bi none = bi) ∨
      (∃ k d, k < ts.length ∧ nearestGo p cms ts i bi none = i + k ∧
        tsDelta p cms ts k = some d ∧
        ∀ j d', tsDelta p cms ts j = some d' → d ≤ d') := by
  intro ts
  induction ts with
  | nil =>
    intro i bi
    left
    refine ⟨?_, rfl⟩
    intro j d' hj
    rw [tsDelta_nil] at hj
    exact absurd hj (by simp)
  | cons t ts ih =>
    intro i bi
    cases hd : deltaOf p cms t with
    | none =>
      have hstep : nearestGo p cms (t :: ts) i bi none =
          nearestGo p cms ts (i + 1) bi none := by
        simp [nearestGo, hd]
      rcases ih (i + 1) bi with ⟨hnone, hr⟩ | ⟨k, d, hk, hr, hdk, hmin⟩
      · left
        refine ⟨?_, by rw [hstep]; exact hr⟩
        intro j d' hj
        cases j with
        | zero => rw [tsDelta_cons_zero, hd] at hj; exact absurd hj (by simp)
        | succ j => rw [tsDelta_cons_succ] at hj; exact hnone j d' hj
      · right
        refine ⟨k + 1, d, by simpa using hk, by rw [hstep, hr]; omega,
          by rw [tsDelta_cons_succ]; exact hdk, ?_⟩
        intro j d' hj
        cases j with
        | zero => rw [tsDelta_cons_zero, hd] at hj; exact absurd hj (by simp)
        | succ j => rw [tsDelta_cons_succ] at hj; exact hmin j d' hj
    | some d0 =>
      have hstep : nearestGo p cms (t :: ts) i bi none =
          nearestGo p cms ts (i + 1) i (some d0) := by
        simp [nearestGo, hd]
      rcases nearestGo_inv_some p cms ts (i + 1) i d0 with
        ⟨hr, hmin⟩ | ⟨k, dk, hk, hr, hdk, hdb, hmin⟩
      · right
        refine ⟨0, d0, by simp, by rw [hstep, hr]; omega, by rw [tsDelta_cons_zero]; exact hd, ?_⟩
        intro j d' hj
        cases j with
        | zero =>
          rw [tsDelta_cons_zero, hd] at hj
          have : d0 = d' := by simpa using hj
          omega
        | succ j => rw [tsDelta_cons_succ] at hj; exact hmin j d' hj
      · right
        refine ⟨k + 1, dk, by simpa using hk, by rw [hstep, hr]; omega,
          by rw [tsDelta_cons_succ]; exact hdk, ?_⟩
        intro j d' hj
        cases j with
        | zero =>
          rw [tsDelta_cons_zero, hd] at hj
          have : d0 = d' := by simpa using hj
          omega
        | succ j => rw [tsDelta_cons_succ] at hj; exact hmin j d' hj

theorem alignIndex_some_eq (p : String → Option Int) (ts : List String) (ct : String) :
    alignIndex p ts (some ct) =
      (if ct = "" then 0
       else if ts = [] then 0
       else
         match findIdxOpt (fun t => t == ct) ts with
         | some i => i
         | none =>
           match findIdxOpt (fun t => startsWithStr t (datePart ct)) ts with
           | some i => i
           | none =>
             match p ct with
             | none => 0
             | some cms => nearestGo p cms ts 0 0 none) := rfl

theorem alignIndex_tier1 (p : String → Option Int) (ts : List String) (ct : String)
    (i : Nat) (hct : ct ≠ "") (hts : ts ≠ [])
    (h1 : findIdxOpt (fun t => t == ct) ts = some i) :
    alignIndex p ts (some ct) = i := by
  rw [alignIndex_some_eq, if_neg hct, if_neg hts, h1]

theorem alignIndex_tier2 (p : String → Option Int) (ts : List String) (ct : String)
    (i : Nat) (hct : ct ≠ "") (hts : ts ≠ [])
    (h1 : findIdxOpt (fun t => t == ct) ts = none)
    (h2 : findIdxOpt (fun t => startsWithStr t (datePart ct)) ts = some i) :
    alignIndex p ts (some ct) = i := by
  rw [alignIndex_some_eq, if_neg hct, if_neg hts, h1, h2]

theorem alignIndex_tier3 (p : String → Option Int) (ts : List String) (ct : String)
    (cms : Int) (hct : ct ≠ "") (hts : ts ≠ [])
    (h1 : findIdxOpt (fun t => t == ct) ts = none)
    (h2 : findIdxOpt (fun t => startsWithStr t (datePart ct)) ts = none)
    (hp : p ct = some cms) :
    alignIndex p ts (some ct) = nearestGo p cms ts 0 0 none := by
  rw [alignIndex_some_eq, if_neg hct, if_neg hts, h1, h2, hp]

/-- **C3 counterexample.** With `currentTime` equal to the empty string,
which occurs verbatim at position 1 of the hourly series, the handler
returns 0, not 1: the guard `if (currentTime && ...)` treats the empty
string as falsy, so no tier runs at all. -/
theorem C3_alignIndex_counterexample :
    alignIndex (fun _ => none) ["x", ""] (some "") = 0 ∧
    findIdxOpt (fun t => t == "") ["x", ""] = some 1 ∧
    alignIndex (fun _ => none) ["x", ""] (some "") ≠ 1 := by decide

/-- **C3 (amended).** The temporal alignment resolves in three tiers,
first success wins — exact occurrence, first same-day index, first index
of minimal parse-distance (skipping unparseable entries) — **provided the
current time is a non-empty string**; and it returns 0 whenever the hourly
series is empty, the current time is absent, or the current time is the
empty string (which the handler's truthiness guard treats like absence). -/
theorem C3_alignIndex_tiers (parseMs : String → Option Int) (hourlyTimes : List String) :
    alignIndex parseMs hourlyTimes none = 0 ∧
    (∀ ct, alignIndex parseMs [] (some ct) = 0) ∧
    alignIndex parseMs hourlyTimes (some "") = 0 ∧
    (∀ ct, ct ≠ "" →
      (∀ i, findIdxOpt (fun t => t == ct) hourlyTimes = some i →
        alignIndex parseMs hourlyTimes (some ct) = i) ∧
      (findIdxOpt (fun t => t == ct) hourlyTimes = none →
        ∀ i, findIdxOpt (fun t => startsWithStr t (datePart ct)) hourlyTimes = some i →
          alignIndex parseMs hourlyTimes (some ct) = i) ∧
      (findIdxOpt (fun t => t == ct) hourlyTimes = none →
        findIdxOpt (fun t => startsWithStr t (datePart ct)) hourlyTimes = none →
        ∀ cms, parseMs ct = some cms →
          (∃ j d, tsDelta parseMs cms hourlyTimes j = some d) →
          ∃ d, tsDelta parseMs cms hourlyTimes
                 (alignIndex parseMs hourlyTimes (some ct)) = some d ∧
            ∀ j d', tsDelta parseMs cms hourlyTimes j = some d' → d ≤ d')) := by
  refine ⟨rfl, ?_, ?_, ?_⟩
  · intro ct
    rw [alignIndex_some_eq]
    by_cases h : ct = "" <;> simp [h]
  · rw [alignIndex_some_eq]
    simp
  · intro ct hct
    refine ⟨?_, ?_, ?_⟩
    · intro i h1
      cases hts : hourlyTimes with
      | nil => rw [hts] at h1; exact absurd h1 (by simp [findIdxOpt])
      | cons a l => exact hts ▸ alignIndex_tier1 parseMs (a :: l) ct i hct (by simp) (hts ▸ h1)
    · intro h1 i h2
      cases hts : hourlyTimes with
      | nil => rw [hts] at h2; exact absurd h2 (by simp [findIdxOpt])
      | cons a l =>
        exact hts ▸ alignIndex_tier2 parseMs (a :: l) ct i hct (by simp) (hts ▸ h1) (hts ▸ h2)
    · intro h1 h2 cms hcms hex
      cases hts : hourlyTimes with
      | nil =>
        rcases hex with ⟨j, d, hj⟩
        rw [hts, tsDelta_nil] at hj
        exact absurd hj (by simp)
      | cons a l =>
        subst hts
        have hal : alignIndex parseMs (a :: l) (some ct) = nearestGo parseMs cms (a :: l) 0 0 none :=
          alignIndex_tier3 parseMs (a :: l) ct cms hct (by simp) h1 h2 hcms
        rcases nearestGo_inv_none parseMs cms (a :: l) 0 0 with
          ⟨hnone, _⟩ | ⟨k, d, hk, hr, hdk, hmin⟩
        · rcases hex with ⟨j, d, hj⟩
          exact absurd (hnone j d hj) (fun h => h)
        · refine ⟨d, ?_, hmin⟩
          rw [hal, hr]
          simpa using hdk

/-- Concrete instance of C3: an exact occurrence of the current time at
position 1 is returned by tier 1. -/
theorem C3_alignIndex_tiers_witness :
    alignIndex (fun _ => none) ["2024-01-01T00:00", "2024-01-01T01:00"] (some "2024-01-01T01:00") = 1 :=
  (((C3_alignIndex_tiers (fun _ => none) ["2024-01-01T00:00", "2024-01-01T01:00"]).2.2.2
      "2024-01-01T01:00" (by decide)).1) 1 (by decide)

/-- **C4 counterexample.** On the spec's own example the handler returns 0,
not 1: the same-day tier takes the **first** index whose timestamp starts
with the date portion, and index 0 is already a same-day entry. -/
theorem C4_alignIndex_example_counterexample :
    alignIndex (fun _ => none) ["2024-01-01T00:00", "2024-01-01T01:00"]
      (some "2024-01-01T05:30") = 0 ∧
    (0 : Nat) ≠ 1 := by
  constructor
  · exact alignIndex_tier2 (fun _ => none) _ _ 0 (by decide) (by decide) (by decide) (by decide)
  · decide

/-- **C4 (amended).** `alignIndex` on the hourly times
`["2024-01-01T00:00", "2024-01-01T01:00"]` with current time
`"2024-01-01T05:30"` returns 0 — the first entry of that day — via the
same-day tier, for every parse function (tier 3 is not consulted). -/
theorem C4_alignIndex_same_day_first (parseMs : String → Option Int) :
    alignIndex parseMs ["2024-01-01T00:00", "2024-01-01T01:00"]
      (some "2024-01-01T05:30") = 0 :=
  alignIndex_tier2 parseMs _ _ 0 (by decide) (by decide) (by decide) (by decide)

theorem orElse_none_eq {α : Type} (o : Option α) :
    (Option.orElse o fun _ => none) = o := by cases o <;> rfl

theorem orElse_of_isSome {α : Type} (o : Option α) (f : Unit → Option α)
    (h : o.isSome = true) : Option.orElse o f = o := by
  cases o with
  | none => simp at h
  | some a => rfl

theorem orElse_of_none {α : Type} (f : Unit → Option α) :
    Option.orElse (none : Option α) f = f () := rfl

theorem findSome?_id_of_first (vs : List (Option Int)) (k : Nat) (n : Int)
    (hk : vs[k]? = some (some n)) (hbefore : ∀ j, j < k → vs[j]? = some none) :
    vs.findSome? id = some n := by
  induction vs generalizing k with
  | nil => simp at hk
  | cons v vs ih =>
    cases k with
    | zero =>
      have hv : v = some n := by simpa using hk
      rw [hv]
      simp [List.findSome?]
    | succ k =>
      have h0 : v = none := by
        have := hbefore 0 (Nat.succ_pos k)
        simpa using this
      rw [h0]
      simp only [List.findSome?, id]
      exact ih k (by simpa using hk)
        (fun j hj => by
          have := hbefore (j + 1) (by omega)
          simpa using this)

theorem findSome?_id_of_all_none (vs : List (Option Int))
    (h : ∀ v ∈ vs, v = none) : vs.findSome? id = none := by
  induction vs with
  | nil => rfl
  | cons v vs ih =>
    have h0 : v = none := h v (by simp)
    rw [h0]
    simp only [List.findSome?, id]
    exact ih (fun x hx => h x (by simp [hx]))

theorem getD_some_mem (vs : List (Option Int)) (i : Nat) (n : Int)
    (h : vs.getD i none = some n) : some n ∈ vs := by
  induction vs generalizing i with
  | nil => simp [List.getD_nil] at h
  | cons v l ih =>
    cases i with
    | zero =>
      rw [List.getD_cons_zero] at h
      simp [h]
    | succ i =>
      rw [List.getD_cons_succ] at h
      exact List.mem_cons_of_mem _ (ih i h)

theorem pickHourlyValue_some_eq (index : Nat) (vs : List (Option Int)) :
    pickHourlyValue index (some vs) =
      (if vs.isEmpty then none
       else
         match vs.getD index none with
         | some n => some n
         | none => vs.findSome? id) := rfl

theorem pickHourlyValue_at (index : Nat) (vs : List (Option Int)) (n : Int)
    (h : vs.getD index none = some n) :
    pickHourlyValue index (some vs) = some n := by
  cases vs with
  | nil => simp [List.getD_nil] at h
  | cons v l =>
    rw [pickHourlyValue_some_eq, if_neg (by simp), h]

theorem pickHourlyValue_first (index : Nat) (vs : List (Option Int)) (k : Nat) (n : Int)
    (h : vs.getD index none = none) (hk : vs[k]? = some (some n))
    (hbefore : ∀ j, j < k → vs[j]? = some none) :
    pickHourlyValue index (some vs) = some n := by
  cases vs with
  | nil => simp at hk
  | cons v l =>
    rw [pickHourlyValue_some_eq, if_neg (by simp), h]
    exact findSome?_id_of_first (v :: l) k n hk hbefore

theorem pickHourlyValue_all_none (index : Nat) (vs : List (Option Int))
    (h : ∀ v ∈ vs, v = none) : pickHourlyValue index (some vs) = none := by
  cases vs with
  | nil => rfl
  | cons v l =>
    rw [pickHourlyValue_some_eq, if_neg (by simp)]
    cases hd : (v :: l).getD index none with
    | none => exact findSome?_id_of_all_none (v :: l) h
    | some n =>
      have := h (some n) (getD_some_mem (v :: l) index n hd)
      exact absurd this (by simp)

theorem extractCurrent_temperature (fd : ForecastData) (index : Nat) :
    (extractCurrent fd index).temperature =
      fd.current_weather.bind CurrentWeather.temperature :=
  orElse_none_eq _

theorem extractCurrent_humidity (fd : ForecastData) (index : Nat) :
    (extractCurrent fd index).humidity =
      pickHourlyValue index (fd.hourly.bind HourlyData.relative_humidity_2m) :=
  orElse_none_eq _

theorem extractCurrent_visibility (fd : ForecastData) (index : Nat) :
    (extractCurrent fd index).visibility =
      pickHourlyValue index (fd.hourly.bind HourlyData.visibility) :=
  orElse_none_eq _

theorem extractCurrent_apparentTemperature (fd : ForecastData) (index : Nat) :
    (extractCurrent fd index).apparentTemperature =
      pickHourlyValue index (fd.hourly.bind HourlyData.apparent_temperature) :=
  orElse_none_eq _

theorem extractCurrent_windspeed (fd : ForecastData) (index : Nat) :
    (extractCurrent fd index).windspeed =
      Option.orElse (pickHourlyValue index (fd.hourly.bind HourlyData.wind_speed_10m))
        (fun _ => Option.orElse (fd.current_weather.bind CurrentWeather.windspeed)
          (fun _ => none)) := rfl

/-- **C5.** The current-conditions extraction: for each of humidity,
visibility, apparent temperature (and windspeed), the value of the
corresponding hourly array at the aligned index when that slot is a
number, else the first numeric value anywhere in that array, else null;
windspeed additionally falls back to `current_weather.windspeed` when the
hourly-derived value is null; temperature comes straight from
`current_weather.temperature` and is null when absent. -/
theorem C5_extractCurrent_fallbacks (fd : ForecastData) (index : Nat) :
    (extractCurrent fd index).temperature =
      fd.current_weather.bind CurrentWeather.temperature ∧
    (∀ (vs : List (Option Int)) (n : Int), fd.hourly.bind HourlyData.relative_humidity_2m = some vs →
      vs.getD index none = some n → (extractCurrent fd index).humidity = some n) ∧
    (∀ (vs : List (Option Int)) (k : Nat) (n : Int), fd.hourly.bind HourlyData.relative_humidity_2m = some vs →
      vs.getD index none = none → vs[k]? = some (some n) →
      (∀ j, j < k → vs[j]? = some none) → (extractCurrent fd index).humidity = some n) ∧
    (∀ (vs : List (Option Int)), fd.hourly.bind HourlyData.relative_humidity_2m = some vs →
      (∀ v ∈ vs, v = none) → (extractCurrent fd index).humidity = none) ∧
    (fd.hourly.bind HourlyData.relative_humidity_2m = none →
      (extractCurrent fd index).humidity = none) ∧
    (∀ (vs : List (Option Int)) (n : Int), fd.hourly.bind HourlyData.visibility = some vs →
      vs.getD index none = some n → (extractCurrent fd index).visibility = some n) ∧
    (∀ (vs : List (Option Int)) (k : Nat) (n : Int), fd.hourly.bind HourlyData.visibility = some vs →
      vs.getD index none = none → vs[k]? = some (some n) →
      (∀ j, j < k → vs[j]? = some none) → (extractCurrent fd index).visibility = some n) ∧
    (∀ (vs : List (Option Int)), fd.hourly.bind HourlyData.visibility = some vs →
      (∀ v ∈ vs, v = none) → (extractCurrent fd index).visibility = none) ∧
    (fd.hourly.bind HourlyData.visibility = none →
      (extractCurrent fd index).visibility = none) ∧
    (∀ (vs : List (Option Int)) (n : Int), fd.hourly.bind HourlyData.apparent_temperature = some vs →
      vs.getD index none = some n →
      (extractCurrent fd index).apparentTemperature = some n) ∧
    (∀ (vs : List (Option Int)) (k : Nat) (n : Int), fd.hourly.bind HourlyData.apparent_temperature = some vs →
      vs.getD index none = none → vs[k]? = some (some n) →
      (∀ j, j < k → vs[j]? = some none) →
      (extractCurrent fd index).apparentTemperature = some n) ∧
    (∀ (vs : List (Option Int)), fd.hourly.bind HourlyData.apparent_temperature = some vs →
      (∀ v ∈ vs, v = none) → (extractCurrent fd index).apparentTemperature = none) ∧
    (fd.hourly.bind HourlyData.apparent_temperature = none →
      (extractCurrent fd index).apparentTemperature = none) ∧
    (∀ (vs : List (Option Int)) (n : Int), fd.hourly.bind HourlyData.wind_speed_10m = some vs →
      vs.getD index none = some n → (extractCurrent fd index).windspeed = some n) ∧
    (∀ (vs : List (Option Int)) (k : Nat) (n : Int), fd.hourly.bind HourlyData.wind_speed_10m = some vs →
      vs.getD index none = none → vs[k]? = some (some n) →
      (∀ j, j < k → vs[j]? = some none) → (extractCurrent fd index).windspeed = some n) ∧
    (∀ (vs : List (Option Int)), fd.hourly.bind HourlyData.wind_speed_10m = some vs →
      (∀ v ∈ vs, v = none) →
      (extractCurrent fd index).windspeed =
        fd.current_weather.bind CurrentWeather.windspeed) ∧
    (fd.hourly.bind HourlyData.wind_speed_10m = none →
      (extractCurrent fd index).windspeed =
        fd.current_weather.bind CurrentWeather.windspeed) := by
  refine ⟨extractCurrent_temperature fd index,
    ?_, ?_, ?_, ?_, ?_, ?_, ?_, ?_, ?_, ?_, ?_, ?_, ?_, ?_, ?_, ?_⟩
  · intro vs n harr hslot
    rw [extractCurrent_humidity, harr]
    exact pickHourlyValue_at index vs n hslot
  · intro vs k n harr hslot hk hbefore
    rw [extractCurrent_humidity, harr]
    exact pickHourlyValue_first index vs k n hslot hk hbefore
  · intro vs harr hall
    rw [extractCurrent_humidity, harr]
    exact pickHourlyValue_all_none index vs hall
  · intro harr
    rw [extractCurrent_humidity, harr]
    rfl
  · intro vs n harr hslot
    rw [extractCurrent_visibility, harr]
    exact pickHourlyValue_at index vs n hslot
  · intro vs k n harr hslot hk hbefore
    rw [extractCurrent_visibility, harr]
    exact pickHourlyValue_first index vs k n hslot hk hbefore
  · intro vs harr hall
    rw [extractCurrent_visibility, harr]
    exact pickHourlyValue_all_none index vs hall
  · intro harr
    rw [extractCurrent_visibility, harr]
    rfl
  · intro vs n harr hslot
    rw [extractCurrent_apparentTemperature, harr]
    exact pickHourlyValue_at index vs n hslot
  · intro vs k n harr hslot hk hbefore
    rw [extractCurrent_apparentTemperature, harr]
    exact pickHourlyValue_first index vs k n hslot hk hbefore
  · intro vs harr hall
    rw [extractCurrent_apparentTemperature, harr]
    exact pickHourlyValue_all_none index vs hall
  · intro harr
    rw [extractCurrent_apparentTemperature, harr]
    rfl
  · intro vs n harr hslot
    rw [extractCurrent_windspeed, harr, pickHourlyValue_at index vs n hslot]
    rfl
  · intro vs k n harr hslot hk hbefore
    rw [extractCurrent_windspeed, harr, pickHourlyValue_first index vs k n hslot hk hbefore]
    rfl
  · intro vs harr hall
    rw [extractCurrent_windspeed, harr, pickHourlyValue_all_none index vs hall]
    exact (orElse_of_none _).trans (orElse_none_eq _)
  · intro harr
    rw [extractCurrent_windspeed, harr]
    exact (orElse_of_none _).trans (orElse_none_eq _)

/-- Concrete instance of C5 (the spec's example): hourly humidity
`[null, null, 55]` with index 0 extracts humidity 55 by the
first-numeric fallback. -/
theorem C5_extractCurrent_fallbacks_witness :
    (extractCurrent w5 0).humidity = some 55 :=
  (C5_extractCurrent_fallbacks w5 0).2.2.1 [none, none, some 55] 2 55
    (by decide) (by decide) (by decide) (by decide)

/-- **C7.** The get-forecast tool's two-provider chain: a failed NWS point
lookup, or a point response lacking a (truthy) forecast URL — absent or
empty-string, per the source's `if (!forecastUrl)` — leads to the
Open-Meteo attempt; a failure fetching the NWS forecast resource itself
terminates with the failure text and does not consult Open-Meteo (the
result is the same for every possible Open-Meteo response); and every
terminal outcome, including each failure, is a returned text block. -/
theorem C7_getForecastTool_chain (w : ToolWorld) (latS lonS : String) :
    (w.nwsPoints = none → w.openMeteo = none →
      getForecastTool w latS lonS =
        "Failed to retrieve forecast data for coordinates: " ++ latS ++ ", " ++ lonS) ∧
    (∀ om, w.nwsPoints = none → w.openMeteo = some om →
      getForecastTool w latS lonS = formatOpenMeteoForecast om latS lonS) ∧
    (∀ pts, w.nwsPoints = some pts →
      jsTruthy (pts.properties.bind NWSPointsProps.forecast) = false → w.openMeteo = none →
      getForecastTool w latS lonS =
        "Failed to get forecast data from grid point response and Open-Meteo") ∧
    (∀ pts om, w.nwsPoints = some pts →
      jsTruthy (pts.properties.bind NWSPointsProps.forecast) = false → w.openMeteo = some om →
      getForecastTool w latS lonS = formatOpenMeteoForecast om latS lonS) ∧
    (∀ pts, w.nwsPoints = some pts →
      jsTruthy (pts.properties.bind NWSPointsProps.forecast) = true →
      w.nwsForecast = none →
      getForecastTool w latS lonS = "Failed to retrieve forecast data" ∧
      ∀ om, getForecastTool { w with openMeteo := om } latS lonS =
        "Failed to retrieve forecast data") := by
  refine ⟨?_, ?_, ?_, ?_, ?_⟩
  · intro h1 h2
    simp [getForecastTool, h1, h2]
  · intro om h1 h2
    simp [getForecastTool, h1, h2]
  · intro pts h1 h2 h3
    simp [getForecastTool, h1, h2, h3]
  · intro pts om h1 h2 h3
    simp [getForecastTool, h1, h2, h3]
  · intro pts h1 h2 h3
    constructor
    · simp [getForecastTool, h1, h2, h3]
    · intro om
      simp [getForecastTool, h1, h2, h3]

/-- Concrete instance of C7: with a resolvable point carrying a forecast
URL but a failed forecast fetch, the tool emits the failure text. -/
theorem C7_getForecastTool_chain_witness :
    getForecastTool ⟨some ⟨some ⟨some "u"⟩⟩, none, none⟩ "39" "-77" =
      "Failed to retrieve forecast data" :=
  ((C7_getForecastTool_chain ⟨some ⟨some ⟨some "u"⟩⟩, none, none⟩ "39" "-77").2.2.2.2
    ⟨some ⟨some "u"⟩⟩ rfl (by decide) rfl).1

/-- **C8 counterexample.** An entry whose translated Hebrew common name is
present but empty: under language "he" the code skips it (JS `||` treats
`""` as falsy) and selects the native Hebrew name instead, so `name` is
not the present translated name. -/
theorem C8_name_selection_counterexample :
    cex8.translations_heb_common = some "" ∧
    (toCountryEntry "he" cex8).name = "ExlandNative" ∧
    (toCountryEntry "he" cex8).name ≠ "" := by decide

/-- **C8 (amended).** For every country directory entry: when the
(lowercased) requested language is "he", `name` is the translated Hebrew
common name when present and non-empty, else the native Hebrew common
name when present and non-empty, else the English common name; for any
other language `name` is always the English common name; `englishName` is
always the English common name. -/
theorem C8_name_selection (lang : String) (item : CountryItem) :
    (toCountryEntry (lowerStr lang) item).englishName = item.name_common ∧
    (lowerStr lang ≠ "he" →
      (toCountryEntry (lowerStr lang) item).name = item.name_common) ∧
    (lowerStr lang = "he" →
      (∀ t, item.translations_heb_common = some t → t ≠ "" →
        (toCountryEntry (lowerStr lang) item).name = t) ∧
      (jsTruthy item.translations_heb_common = false →
        ∀ nv, item.nativeName_heb_common = some nv → nv ≠ "" →
          (toCountryEntry (lowerStr lang) item).name = nv) ∧
      (jsTruthy item.translations_heb_common = false →
        jsTruthy item.nativeName_heb_common = false →
        (toCountryEntry (lowerStr lang) item).name = item.name_common)) := by
  refine ⟨rfl, ?_, ?_⟩
  · intro h
    simp [toCountryEntry, h]
  · intro h
    refine ⟨?_, ?_, ?_⟩
    · intro t ht htne
      simp [toCountryEntry, h, jsOrS, jsOrO, ht, htne]
    · intro htr nv hnv hne
      cases htrc : item.translations_heb_common with
      | none => simp [toCountryEntry, h, jsOrS, jsOrO, htrc, hnv, hne]
      | some t =>
        have ht0 : t = "" := by
          rw [htrc] at htr
          simpa [jsTruthy] using htr
        subst ht0
        simp [toCountryEntry, h, jsOrS, jsOrO, htrc, hnv, hne]
    · intro htr hnv
      cases htrc : item.translations_heb_common with
      | none =>
        cases hnvc : item.nativeName_heb_common with
        | none => simp [toCountryEntry, h, jsOrS, jsOrO, htrc, hnvc]
        | some nv =>
          have hnv0 : nv = "" := by
            rw [hnvc] at hnv
            simpa [jsTruthy] using hnv
          subst hnv0
          simp [toCountryEntry, h, jsOrS, jsOrO, htrc, hnvc]
      | some t =>
        have ht0 : t = "" := by
          rw [htrc] at htr
          simpa [jsTruthy] using htr
        subst ht0
        cases hnvc : item.nativeName_heb_common with
        | none => simp [toCountryEntry, h, jsOrS, jsOrO, htrc, hnvc]
        | some nv =>
          have hnv0 : nv = "" := by
            rw [hnvc] at hnv
            simpa [jsTruthy] using hnv
          subst hnv0
          simp [toCountryEntry, h, jsOrS, jsOrO, htrc, hnvc]

/-- Concrete instance of C8: under "he" the translated Hebrew name wins
when non-empty; under "en" the English common name is used. -/
theorem C8_name_selection_witness :
    (toCountryEntry (lowerStr "he") w8).name = "trans-he" ∧
    (toCountryEntry (lowerStr "en") w8).name = "Israel" :=
  ⟨((C8_name_selection "he" w8).2.2 (by decide)).1 "trans-he" rfl (by decide),
   (C8_name_selection "en" w8).2.1 (by decide)⟩

theorem dedupBy_sublist {α : Type} (key : α → String) :
    ∀ (xs : List α) (seen : List String), List.Sublist (dedupBy key xs seen) xs := by
  intro xs
  induction xs with
  | nil => intro seen; simp [dedupBy]
  | cons x l ih =>
    intro seen
    unfold dedupBy
    by_cases h : seen.contains (key x) = true
    · rw [if_pos h]
      exact List.sublist_cons_of_sublist x (ih seen)
    · rw [if_neg h]
      exact List.Sublist.cons₂ x (ih _)

theorem dedupBy_not_seen {α : Type} (key : α → String) :
    ∀ (xs : List α) (seen : List String) (y : α), y ∈ dedupBy key xs seen →
      seen.contains (key y) = false := by
  intro xs
  induction xs with
  | nil => intro seen y hy; simp [dedupBy] at hy
  | cons x l ih =>
    intro seen y hy
    unfold dedupBy at hy
    by_cases h : seen.contains (key x) = true
    · rw [if_pos h] at hy
      exact ih seen y hy
    · rw [if_neg h] at hy
      rcases List.mem_cons.mp hy with rfl | hy'
      · simpa using h
      · have hns := ih (key x :: seen) y hy'
        rw [List.contains_cons] at hns
        exact (Bool.or_eq_false_iff.mp hns).2

theorem dedupBy_keys_nodup {α : Type} (key : α → String) :
    ∀ (xs : List α) (seen : List String), ((dedupBy key xs seen).map key).Nodup := by
  intro xs
  induction xs with
  | nil => intro seen; simp [dedupBy]
  | cons x l ih =>
    intro seen
    unfold dedupBy
    by_cases h : seen.contains (key x) = true
    · rw [if_pos h]; exact ih seen
    · rw [if_neg h]
      simp only [List.map_cons, List.nodup_cons]
      refine ⟨?_, ih _⟩
      intro hmem
      rcases List.mem_map.mp hmem with ⟨y, hy, hky⟩
      have hns := dedupBy_not_seen key l (key x :: seen) y hy
      rw [List.contains_cons] at hns
      have hne := (Bool.or_eq_false_iff.mp hns).1
      rw [hky] at hne
      simp at hne

theorem dedupBy_first {α : Type} (key : α → String) :
    ∀ (xs : List α) (seen : List String) (y : α), y ∈ dedupBy key xs seen →
      xs.find? (fun x => key x == key y) = some y := by
  intro xs
  induction xs with
  | nil => intro seen y hy; simp [dedupBy] at hy
  | cons x l ih =>
    intro seen y hy
    unfold dedupBy at hy
    by_cases h : seen.contains (key x) = true
    · rw [if_pos h] at hy
      have hns := dedupBy_not_seen key l seen y hy
      have hne : (key x == key y) = false := by
        cases hb : (key x == key y) with
        | false => rfl
        | true =>
          have hk : key x = key y := by simpa using hb
          rw [← hk, h] at hns
          exact absurd hns (by simp)
      rw [List.find?_cons_of_neg _ (by simp [hne])]
      exact ih seen y hy
    · rw [if_neg h] at hy
      rcases List.mem_cons.mp hy with rfl | hy'
      · rw [List.find?_cons_of_pos _ (by simp)]
      · have hns := dedupBy_not_seen key l (key x :: seen) y hy'
        rw [List.contains_cons] at hns
        have hne := (Bool.or_eq_false_iff.mp hns).1
        have hne' : (key x == key y) = false := by
          cases hb : (key x == key y) with
          | false => rfl
          | true =>
            have hk : key x = key y := by simpa using hb
            rw [hk] at hne
            simp at hne
        rw [List.find?_cons_of_neg _ (by simp [hne'])]
        exact ih (key x :: seen) y hy'

theorem find?_strengthen {α : Type} (p q : α → Bool)
    (hpq : ∀ a, q a = true → p a = true) :
    ∀ (l : List α) (y : α), l.find? p = some y → q y = true → l.find? q = some y := by
  intro l
  induction l with
  | nil => intro y h; simp [List.find?] at h
  | cons x xs ih =>
    intro y hf hq
    cases hx : p x with
    | true =>
      rw [List.find?_cons_of_pos _ hx] at hf
      have hxy : x = y := by simpa using hf
      subst hxy
      rw [List.find?_cons_of_pos _ hq]
    | false =>
      have hqx : q x = false := by
        cases hb : q x with
        | false => rfl
        | true => rw [hpq x hb] at hx; exact absurd hx (by simp)
      rw [List.find?_cons_of_neg _ (by simp [hx])] at hf
      rw [List.find?_cons_of_neg _ (by simp [hqx])]
      exact ih y hf hq

theorem cityKey_eq_pairKeyStr (p : String × Option String) :
    cityKey p = pairKeyStr (cityPair p) := rfl

theorem citiesForCountry_eq (results : List GeocodingResult) (country : String) :
    citiesForCountry results country =
      dedupBy cityKey
        ((results.filter (cityCodeMatch country)).map (fun item => (item.name, item.admin1)))
        [] := rfl

/-- **C9.** The cities-by-country response is drawn from the candidates
whose country code matches (it is a sublist of their `(name, admin1)`
projections, so first-seen order is preserved), it contains at most one
entry per lowercased `(name, admin1)` pair, and every entry it contains
is the first occurrence of its pair among the matching candidates. -/
theorem C9_cities_dedup (results : List GeocodingResult) (country : String) :
    List.Sublist (citiesForCountry results country)
      ((results.filter (cityCodeMatch country)).map (fun item => (item.name, item.admin1))) ∧
    ((citiesForCountry results country).map cityPair).Nodup ∧
    (∀ y, y ∈ citiesForCountry results country →
      ((results.filter (cityCodeMatch country)).map
          (fun item => (item.name, item.admin1))).find?
        (fun x => decide (cityPair x = cityPair y)) = some y) := by
  refine ⟨?_, ?_, ?_⟩
  · rw [citiesForCountry_eq]
    exact dedupBy_sublist cityKey _ []
  · have hk := dedupBy_keys_nodup cityKey
      ((results.filter (cityCodeMatch country)).map (fun item => (item.name, item.admin1))) []
    rw [← citiesForCountry_eq] at hk
    refine List.Nodup.of_map pairKeyStr ?_
    rw [List.map_map]
    exact hk
  · intro y hy
    rw [citiesForCountry_eq] at hy
    have hf := dedupBy_first cityKey _ [] y hy
    refine find?_strengthen (fun x => cityKey x == cityKey y)
      (fun x => decide (cityPair x = cityPair y)) ?_ _ y hf (by simp)
    intro a ha
    have hpair : cityPair a = cityPair y := of_decide_eq_true ha
    have : cityKey a = cityKey y := by
      rw [cityKey_eq_pairKeyStr, cityKey_eq_pairKeyStr, hpair]
    simp [this]

/-- Concrete instance of C9: two spellings of Springfield that agree on
the lowercased pair are collapsed to the first-seen entry, which is the
first matching candidate with that pair. -/
theorem C9_cities_dedup_witness :
    (([w9a, w9b].filter (cityCodeMatch "us")).map
        (fun item => (item.name, item.admin1))).find?
      (fun x => decide (cityPair x = cityPair ("Springfield", some "Illinois"))) =
      some ("Springfield", some "Illinois") :=
  (C9_cities_dedup [w9a, w9b] "us").2.2 ("Springfield", some "Illinois") (by decide)

/-- **C10.** Every upstream failure of `searchCountries` — a network
error, any non-2xx status (404 or otherwise), or a JSON parse failure —
yields the empty list, which the search handler serves as a 200 success
`{countries: []}`, indistinguishable from a query with zero matches; by
contrast the country-list endpoint maps an empty result (here: a failed
fetch with no usable cache) to a 502 error. -/
theorem C10_search_failure_mapping (le : String → String → Bool)
    (lang query : String) (h : trimStr query ≠ "") :
    searchHandler le lang query FetchOutcome.networkError = ApiResponse.ok [] ∧
    (∀ code, searchHandler le lang query (FetchOutcome.status code) = ApiResponse.ok []) ∧
    searchHandler le lang query FetchOutcome.parseError = ApiResponse.ok [] ∧
    searchHandler le lang query (FetchOutcome.ok []) = ApiResponse.ok [] ∧
    (∀ refresh, countriesIndexHandler le lang none refresh none =
      ApiResponse.err 502 "Unable to load countries list.") := by
  have hq : (trimStr query == "") = false := by
    simpa using h
  refine ⟨?_, ?_, ?_, ?_, ?_⟩
  · simp [searchHandler, hq, searchCountries]
  · intro code
    by_cases hc : (code == 404) = true <;>
      simp [searchHandler, hq, searchCountries, hc]
  · simp [searchHandler, hq, searchCountries]
  · simp [searchHandler, hq, searchCountries, buildCountries, sortByName]
  · intro refresh
    cases refresh <;>
      simp [countriesIndexHandler, getCountries]

/-- Concrete instance of C10: a network failure is served as a 200 empty
success while the list endpoint turns a failed fetch into a 502. -/
theorem C10_search_failure_mapping_witness :
    searchHandler (fun _ _ => true) "en" "x" FetchOutcome.networkError =
      ApiResponse.ok [] ∧
    countriesIndexHandler (fun _ _ => true) "en" none false none =
      ApiResponse.err 502 "Unable to load countries list." :=
  ⟨(C10_search_failure_mapping (fun _ _ => true) "en" "x" (by decide)).1,
   (C10_search_failure_mapping (fun _ _ => true) "en" "x" (by decide)).2.2.2.2 false⟩
